import Mathlib

/-!
Verification development for the `glreporter` concurrent recursive fetch engine
(`internal/glclient/client.go` and `internal/worker`).

The Go client is embedded shallowly:

* the GitLab API gateway becomes an explicit record of fixture functions
  (`API`), each returning `Except String` results, with paginated listings
  returning a page of items together with a next-page cursor (`0` = done);
* every `for { ... resp.NextPage ... }` pagination loop of the Go source
  becomes a fuel-indexed recursive function returning `Option` (`none` models
  a loop that did not terminate within the fuel budget — the Go loop would
  spin forever on such a fixture);
* the concurrent tree walker (`GetGroupsRecursively` / `fetchSubgroups`),
  which submits one pool task per discovered subgroup and appends to a
  mutex-guarded shared slice, is modelled by an explicit task work-list
  processed sequentially: each task pages through one parent's subgroups,
  appends them to the shared accumulator and enqueues one task per child,
  exactly as the Go task does;
* the fan-out aggregators become folds over the node collection with the
  per-node error-swallowing of the `fetch*For*` helpers.
-/

set_option maxHeartbeats 1000000

namespace GLReporter

/-- Maximum number of items per page (`maxPageSize` in client.go). -/
def maxPageSize : Nat := 50

/-- Maximum number of concurrent workers (`maxNumWorkers` in client.go). -/
def maxNumWorkers : Nat := 100

/-- The fields of `gitlab.Group` used by the client. -/
structure Group where
  id : Nat
  name : String
  path : String
  fullPath : String
  webURL : String
  deriving DecidableEq, Repr

/-- The fields of `gitlab.Project` used by the client. -/
structure Project where
  id : Nat
  name : String
  pathWithNamespace : String
  namespaceFullPath : String
  webURL : String
  deriving DecidableEq, Repr

/-- The fields of `gitlab.GroupAccessToken` used by the client. -/
structure GroupAccessToken where
  name : String
  active : Bool
  deriving DecidableEq, Repr

/-- The fields of `gitlab.ProjectAccessToken` used by the client. -/
structure ProjectAccessToken where
  name : String
  active : Bool
  deriving DecidableEq, Repr

/-- The fields of `gitlab.PipelineTrigger` used by the client. -/
structure PipelineTrigger where
  description : String
  deriving DecidableEq, Repr

/-- The fields of `gitlab.ProjectVariable` used by the client. -/
structure ProjectVariable where
  key : String
  value : String
  deriving DecidableEq, Repr

/-- The fields of `gitlab.GroupVariable` used by the client. -/
structure GroupVariable where
  key : String
  value : String
  deriving DecidableEq, Repr

/-- A group access token wrapped with its owning group (client.go
`GroupAccessTokenWithGroup`). -/
structure GroupAccessTokenWithGroup where
  token : GroupAccessToken
  groupName : String
  groupPath : String
  groupWebURL : String
  deriving DecidableEq, Repr

/-- A project access token wrapped with its owning project (client.go
`ProjectAccessTokenWithProject`). -/
structure ProjectAccessTokenWithProject where
  token : ProjectAccessToken
  projectName : String
  projectPath : String
  projectNamespace : String
  projectWebURL : String
  deriving DecidableEq, Repr

/-- A pipeline trigger wrapped with its owning project (client.go
`PipelineTriggerWithProject`). -/
structure PipelineTriggerWithProject where
  trigger : PipelineTrigger
  projectName : String
  projectPath : String
  projectNamespace : String
  projectWebURL : String
  deriving DecidableEq, Repr

/-- A project variable wrapped with its owning project (client.go
`ProjectVariableWithProject`). -/
structure ProjectVariableWithProject where
  variable' : ProjectVariable
  projectName : String
  projectPath : String
  projectNamespace : String
  projectWebURL : String
  deriving DecidableEq, Repr

/-- A group variable wrapped with its owning group (client.go
`GroupVariableWithGroup`). -/
structure GroupVariableWithGroup where
  variable' : GroupVariable
  groupName : String
  groupPath : String
  groupWebURL : String
  groupFullPath : String
  deriving DecidableEq, Repr

/-- One page of a paginated listing: the items of the page and the next-page
cursor (`nextPage = 0` signals the last page), mirroring `gitlab.Response`. -/
structure PageResp (α : Type) where
  items : List α
  nextPage : Nat
  deriving Repr

/-- The `gitlab.AccessTokenStateActive` constant used as the server-side state
filter. -/
def accessTokenStateActive : String := "active"

/-- The abstract API gateway consumed by the client: one fixture function per
remote listing/lookup operation used by client.go. Listings take the page
number; token listings additionally take the optional state filter that the
client puts into the request options. -/
structure API where
  getGroup : String → Except String Group
  listGroups : Nat → Except String (PageResp Group)
  listSubGroups : String → Nat → Except String (PageResp Group)
  listGroupProjects : String → Nat → Except String (PageResp Project)
  getProject : String → Except String Project
  listGroupAccessTokens : String → Option String → Nat → Except String (PageResp GroupAccessToken)
  listProjectAccessTokens : String → Option String → Nat → Except String (PageResp ProjectAccessToken)
  listPipelineTriggers : String → Nat → Except String (PageResp PipelineTrigger)
  listProjectVariables : String → Nat → Except String (PageResp ProjectVariable)
  listGroupVariables : String → Nat → Except String (PageResp GroupVariable)

/-- The pagination loop of `GetAllGroups` (and, shape-wise, of every
error-propagating listing loop of client.go): fetch pages starting from
`page`, append each page's items in order, stop when the next-page cursor is
`0`, propagate an error immediately. `none` = fuel exhausted (the Go loop
would not have terminated within `fuel` iterations). -/
def drainPages {α : Type} (fetch : Nat → Except String (PageResp α)) :
    Nat → Nat → List α → Option (Except String (List α))
  | 0, _, _ => none
  | fuel + 1, page, acc =>
    match fetch page with
    | .error e => some (.error e)
    | .ok resp =>
      if resp.nextPage = 0 then
        some (.ok (acc ++ resp.items))
      else
        drainPages fetch fuel resp.nextPage (acc ++ resp.items)

/-- Embedding of `GetAllGroups`: drain `listGroups` starting at page 1. -/
def getAllGroups (api : API) (fuel : Nat) : Option (Except String (List Group)) :=
  drainPages api.listGroups fuel 1 []

/-- The page loop of `fetchSubgroups`: page through the direct subgroups of
`parent`, appending each page to the accumulator. A page error abandons the
branch silently, keeping what was already appended (the Go helper just
returns). -/
def fetchSubgroupPages (api : API) : Nat → String → Nat → List Group → Option (List Group)
  | 0, _, _, _ => none
  | fuel + 1, parent, page, acc =>
    match api.listSubGroups parent page with
    | .error _ => some acc
    | .ok resp =>
      if resp.nextPage = 0 then
        some (acc ++ resp.items)
      else
        fetchSubgroupPages api fuel parent resp.nextPage (acc ++ resp.items)

/-- The task work-list of the recursive tree walk. Each queue entry is the
string identifier handed to one `fetchSubgroups` pool task; processing it
appends the parent's subgroups to the shared collection and enqueues one task
per discovered child, keyed by `strconv.Itoa(child.ID)` as in client.go. -/
def walkSubgroups (api : API) (pageFuel : Nat) :
    Nat → List String → List Group → Option (List Group)
  | _, [], acc => some acc
  | 0, _ :: _, _ => none
  | fuel + 1, parent :: queue, acc =>
    match fetchSubgroupPages api pageFuel parent 1 [] with
    | none => none
    | some children =>
      walkSubgroups api pageFuel fuel
        (queue ++ children.map (fun g => toString g.id)) (acc ++ children)

/-- Embedding of `GetGroupsRecursively`: the empty identifier falls back to
the flat `GetAllGroups` listing; otherwise the root group is fetched with a
single non-paginated call (failure is fatal), seeded into the shared
collection, and one recursive `fetchSubgroups` task is submitted for it. -/
def getGroupsRecursively (api : API) (fuel : Nat) (groupID : String) :
    Option (Except String (List Group)) :=
  if groupID = "" then
    getAllGroups api fuel
  else
    match api.getGroup groupID with
    | .error e => some (.error ("failed to get root group: " ++ e))
    | .ok rootGroup =>
      match walkSubgroups api fuel fuel [groupID] [rootGroup] with
      | none => none
      | some groups => some (.ok groups)

/-- The page loop of `fetchProjectsForGroupWithDedupe`: on a page error the
partially accumulated projects are returned together with the error, exactly
as the Go function returns `allProjects, err` (its caller discards the partial
list when the error is non-nil). -/
def fetchProjectPages (api : API) :
    Nat → String → Nat → List Project → Option (List Project × Option String)
  | 0, _, _, _ => none
  | fuel + 1, groupID, page, acc =>
    match api.listGroupProjects groupID page with
    | .error e =>
      some (acc, some ("failed to fetch projects for group " ++ groupID ++ ": " ++ e))
    | .ok resp =>
      if resp.nextPage = 0 then
        some (acc ++ resp.items, none)
      else
        fetchProjectPages api fuel groupID resp.nextPage (acc ++ resp.items)

/-- Embedding of `fetchProjectsForGroupWithDedupe`: drain the group's project
pages starting at page 1. -/
def fetchProjectsForGroupWithDedupe (api : API) (fuel : Nat) (groupID : String) :
    Option (List Project × Option String) :=
  fetchProjectPages api fuel groupID 1 []

/-- One insertion into the `projectMap` of `GetProjectsRecursively`: the
existence check and the insert happen atomically (under `mapMu` in the Go
code), so a project ID already present is never overwritten. -/
def insertProjectIfAbsent (m : List Project) (p : Project) : List Project :=
  if m.any (fun q => q.id == p.id) then m else m ++ [p]

/-- Adding one group's fetched projects to the shared `projectMap`. -/
def mergeProjects (m : List Project) (ps : List Project) : List Project :=
  ps.foldl insertProjectIfAbsent m

/-- The fan-out of `GetProjectsRecursively`: one task per group, keyed by the
group's full path; a failed branch contributes nothing (the task just
returns), all other branches are merged into the shared map. -/
def gatherProjects (api : API) (fuel : Nat) : List Group → List Project → Option (List Project)
  | [], m => some m
  | g :: gs, m =>
    match fetchProjectsForGroupWithDedupe api fuel g.fullPath with
    | none => none
    | some (_, some _) => gatherProjects api fuel gs m
    | some (ps, none) => gatherProjects api fuel gs (mergeProjects m ps)

/-- The final `sort.Slice` of `GetProjectsRecursively`: ascending by numeric
project ID. -/
def sortProjectsByID (ps : List Project) : List Project :=
  ps.insertionSort (fun a b => a.id ≤ b.id)

/-- Embedding of `GetProjectsRecursively`: groups from the tree walk, a
deduplicating per-group project fan-out, then the map converted to a slice
sorted ascending by ID. -/
def getProjectsRecursively (api : API) (fuel : Nat) (groupID : String) :
    Option (Except String (List Project)) :=
  match getGroupsRecursively api fuel groupID with
  | none => none
  | some (.error e) => some (.error e)
  | some (.ok groups) =>
    match gatherProjects api fuel groups [] with
    | none => none
    | some projectMap => some (.ok (sortProjectsByID projectMap))

/-- Wrapping a group access token with its owning group's identity
(client.go lines 662-669). -/
def wrapGroupToken (g : Group) (t : GroupAccessToken) : GroupAccessTokenWithGroup :=
  { token := t, groupName := g.name, groupPath := g.fullPath, groupWebURL := g.webURL }

/-- The page loop of `listTokensForGroup`: every token returned by the remote
is wrapped and appended — there is no client-side re-check of the active flag
in this function. -/
def listGroupTokenPages (api : API) (groupID : String) (g : Group) (state : Option String) :
    Nat → Nat → List GroupAccessTokenWithGroup →
    Option (Except String (List GroupAccessTokenWithGroup))
  | 0, _, _ => none
  | fuel + 1, page, acc =>
    match api.listGroupAccessTokens groupID state page with
    | .error e => some (.error ("failed to list group access tokens: " ++ e))
    | .ok resp =>
      let acc2 := acc ++ resp.items.map (wrapGroupToken g)
      if resp.nextPage = 0 then
        some (.ok acc2)
      else
        listGroupTokenPages api groupID g state fuel resp.nextPage acc2

/-- Embedding of `listTokensForGroup`: when `includeInactive` is false the
request options carry the active-state filter; the returned tokens are all
included. -/
def listTokensForGroup (api : API) (fuel : Nat) (groupID : String) (g : Group)
    (includeInactive : Bool) : Option (Except String (List GroupAccessTokenWithGroup)) :=
  let state := if includeInactive then none else some accessTokenStateActive
  listGroupTokenPages api groupID g state fuel 1 []

/-- Wrapping a project access token with its owning project's identity
(client.go lines 824-830). -/
def wrapProjectToken (p : Project) (t : ProjectAccessToken) : ProjectAccessTokenWithProject :=
  { token := t, projectName := p.name, projectPath := p.pathWithNamespace,
    projectNamespace := p.namespaceFullPath, projectWebURL := p.webURL }

/-- The page loop of `listTokensForProject`: tokens failing the client-side
active re-check (`!includeInactive && !token.Active`) are skipped before
wrapping. -/
def listProjectTokenPages (api : API) (projectID : String) (p : Project)
    (includeInactive : Bool) (state : Option String) :
    Nat → Nat → List ProjectAccessTokenWithProject →
    Option (Except String (List ProjectAccessTokenWithProject))
  | 0, _, _ => none
  | fuel + 1, page, acc =>
    match api.listProjectAccessTokens projectID state page with
    | .error e => some (.error ("failed to list project access tokens: " ++ e))
    | .ok resp =>
      let kept := resp.items.filter (fun t => includeInactive || t.active)
      let acc2 := acc ++ kept.map (wrapProjectToken p)
      if resp.nextPage = 0 then
        some (.ok acc2)
      else
        listProjectTokenPages api projectID p includeInactive state fuel resp.nextPage acc2

/-- Embedding of `listTokensForProject`: when `includeInactive` is false the
request options carry the active-state filter and each returned token's
active flag is re-checked before inclusion. -/
def listTokensForProject (api : API) (fuel : Nat) (projectID : String) (p : Project)
    (includeInactive : Bool) : Option (Except String (List ProjectAccessTokenWithProject)) :=
  let state := if includeInactive then none else some accessTokenStateActive
  listProjectTokenPages api projectID p includeInactive state fuel 1 []

/-- Embedding of `GetGroupAccessTokens`: fail-fast single-target entry point. -/
def getGroupAccessTokens (api : API) (fuel : Nat) (groupID : String)
    (includeInactive : Bool) : Option (Except String (List GroupAccessTokenWithGroup)) :=
  match api.getGroup groupID with
  | .error e => some (.error ("failed to get group info: " ++ e))
  | .ok group => listTokensForGroup api fuel groupID group includeInactive

/-- Embedding of `GetProjectAccessTokens`: fail-fast single-target entry point. -/
def getProjectAccessTokens (api : API) (fuel : Nat) (projectID : String)
    (includeInactive : Bool) : Option (Except String (List ProjectAccessTokenWithProject)) :=
  match api.getProject projectID with
  | .error e => some (.error ("failed to get project " ++ projectID ++ ": " ++ e))
  | .ok project =>
    match listTokensForProject api fuel projectID project includeInactive with
    | none => none
    | some (.error e) =>
      some (.error ("failed to list tokens for project " ++ projectID ++ ": " ++ e))
    | some (.ok ts) => some (.ok ts)

/-- The group-token fan-out of `GetGroupAccessTokensRecursively`: one
`fetchTokensForGroup` task per group, keyed by `strconv.Itoa(group.ID)`; a
failed group's task swallows the error and contributes nothing. -/
def gatherGroupTokens (api : API) (fuel : Nat) (includeInactive : Bool) :
    List Group → List GroupAccessTokenWithGroup → Option (List GroupAccessTokenWithGroup)
  | [], acc => some acc
  | g :: gs, acc =>
    match listTokensForGroup api fuel (toString g.id) g includeInactive with
    | none => none
    | some (.error _) => gatherGroupTokens api fuel includeInactive gs acc
    | some (.ok ts) => gatherGroupTokens api fuel includeInactive gs (acc ++ ts)

/-- Embedding of `GetGroupAccessTokensRecursively`. -/
def getGroupAccessTokensRecursively (api : API) (fuel : Nat) (groupID : String)
    (includeInactive : Bool) : Option (Except String (List GroupAccessTokenWithGroup)) :=
  match getGroupsRecursively api fuel groupID with
  | none => none
  | some (.error e) => some (.error e)
  | some (.ok groups) =>
    match gatherGroupTokens api fuel includeInactive groups [] with
    | none => none
    | some ts => some (.ok ts)

/-- Wrapping a pipeline trigger with its owning project's identity. -/
def wrapTrigger (p : Project) (t : PipelineTrigger) : PipelineTriggerWithProject :=
  { trigger := t, projectName := p.name, projectPath := p.pathWithNamespace,
    projectNamespace := p.namespaceFullPath, projectWebURL := p.webURL }

/-- The page loop of `listTriggersForProject`. -/
def listTriggerPages (api : API) (projectID : String) (p : Project) :
    Nat → Nat → List PipelineTriggerWithProject →
    Option (Except String (List PipelineTriggerWithProject))
  | 0, _, _ => none
  | fuel + 1, page, acc =>
    match api.listPipelineTriggers projectID page with
    | .error e => some (.error ("failed to list pipeline trigger tokens: " ++ e))
    | .ok resp =>
      let acc2 := acc ++ resp.items.map (wrapTrigger p)
      if resp.nextPage = 0 then
        some (.ok acc2)
      else
        listTriggerPages api projectID p fuel resp.nextPage acc2

/-- Embedding of `listTriggersForProject`. -/
def listTriggersForProject (api : API) (fuel : Nat) (projectID : String) (p : Project) :
    Option (Except String (List PipelineTriggerWithProject)) :=
  listTriggerPages api projectID p fuel 1 []

/-- Embedding of `GetPipelineTriggers`: fail-fast single-target entry point. -/
def getPipelineTriggers (api : API) (fuel : Nat) (projectID : String) :
    Option (Except String (List PipelineTriggerWithProject)) :=
  match api.getProject projectID with
  | .error e => some (.error ("failed to get project: " ++ e))
  | .ok project => listTriggersForProject api fuel projectID project

/-- Wrapping a project variable with its owning project's identity. -/
def wrapProjectVariable (p : Project) (v : ProjectVariable) : ProjectVariableWithProject :=
  { variable' := v, projectName := p.name, projectPath := p.pathWithNamespace,
    projectNamespace := p.namespaceFullPath, projectWebURL := p.webURL }

/-- The page loop of `listVariablesForProject`. -/
def listProjectVariablePages (api : API) (projectID : String) (p : Project) :
    Nat → Nat → List ProjectVariableWithProject →
    Option (Except String (List ProjectVariableWithProject))
  | 0, _, _ => none
  | fuel + 1, page, acc =>
    match api.listProjectVariables projectID page with
    | .error e => some (.error ("failed to list project variables: " ++ e))
    | .ok resp =>
      let acc2 := acc ++ resp.items.map (wrapProjectVariable p)
      if resp.nextPage = 0 then
        some (.ok acc2)
      else
        listProjectVariablePages api projectID p fuel resp.nextPage acc2

/-- Embedding of `listVariablesForProject`. -/
def listVariablesForProject (api : API) (fuel : Nat) (projectID : String) (p : Project) :
    Option (Except String (List ProjectVariableWithProject)) :=
  listProjectVariablePages api projectID p fuel 1 []

/-- Embedding of `GetProjectVariables`: fail-fast single-target entry point. -/
def getProjectVariables (api : API) (fuel : Nat) (projectID : String) :
    Option (Except String (List ProjectVariableWithProject)) :=
  match api.getProject projectID with
  | .error e => some (.error ("failed to get project " ++ projectID ++ ": " ++ e))
  | .ok project =>
    match listVariablesForProject api fuel projectID project with
    | none => none
    | some (.error e) =>
      some (.error ("failed to list variables for project " ++ projectID ++ ": " ++ e))
    | some (.ok vs) => some (.ok vs)

/-- Wrapping a group variable with its owning group's identity. -/
def wrapGroupVariable (g : Group) (v : GroupVariable) : GroupVariableWithGroup :=
  { variable' := v, groupName := g.name, groupPath := g.path, groupWebURL := g.webURL,
    groupFullPath := g.fullPath }

/-- The page loop of `listVariablesForGroup`. -/
def listGroupVariablePages (api : API) (groupID : String) (g : Group) :
    Nat → Nat → List GroupVariableWithGroup →
    Option (Except String (List GroupVariableWithGroup))
  | 0, _, _ => none
  | fuel + 1, page, acc =>
    match api.listGroupVariables groupID page with
    | .error e => some (.error ("failed to list group variables: " ++ e))
    | .ok resp =>
      let acc2 := acc ++ resp.items.map (wrapGroupVariable g)
      if resp.nextPage = 0 then
        some (.ok acc2)
      else
        listGroupVariablePages api groupID g fuel resp.nextPage acc2

/-- Embedding of `listVariablesForGroup`. -/
def listVariablesForGroup (api : API) (fuel : Nat) (groupID : String) (g : Group) :
    Option (Except String (List GroupVariableWithGroup)) :=
  listGroupVariablePages api groupID g fuel 1 []

/-- Embedding of `GetGroupVariables`: fail-fast single-target entry point. -/
def getGroupVariables (api : API) (fuel : Nat) (groupID : String) :
    Option (Except String (List GroupVariableWithGroup)) :=
  match api.getGroup groupID with
  | .error e => some (.error ("failed to get group " ++ groupID ++ ": " ++ e))
  | .ok group =>
    match listVariablesForGroup api fuel groupID group with
    | none => none
    | some (.error e) =>
      some (.error ("failed to list variables for group " ++ groupID ++ ": " ++ e))
    | some (.ok vs) => some (.ok vs)

/-- The queue-capacity multiplier of the worker pool
(`taskQueueBufferMultiplier` in internal/worker). -/
def taskQueueBufferMultiplier : Nat := 2

/-- State of the worker pool: the configured number of persistent workers, the
bounded capacity of the task channel, the queued tasks, and the tasks
currently being executed by workers. -/
structure PoolState (τ : Type) where
  workers : Nat
  queueCap : Nat
  queue : List τ
  running : List τ
  deriving Repr

/-- Embedding of `worker.NewPool`: records `workers` workers and allocates a
task channel of capacity `workers * taskQueueBufferMultiplier`; no task is
queued or running initially. -/
def newPool (τ : Type) (workers : Nat) : PoolState τ :=
  { workers := workers, queueCap := workers * taskQueueBufferMultiplier,
    queue := [], running := [] }

/-- Small-step semantics of the pool. `submit` models `Submit` (a channel send:
enabled only while the buffered channel has room — a caller facing a full
queue blocks, there is no error or drop path); `start` models a worker
receiving a task from the channel; `finish` models a worker completing its
current task. -/
inductive PoolStep (τ : Type) : PoolState τ → PoolState τ → Prop
  | submit (s : PoolState τ) (t : τ) (h : s.queue.length < s.queueCap) :
      PoolStep τ s { s with queue := s.queue ++ [t] }
  | start (s : PoolState τ) (t : τ) (rest : List τ) (hq : s.queue = t :: rest)
      (h : s.running.length < s.workers) :
      PoolStep τ s { s with queue := rest, running := s.running ++ [t] }
  | finish (s : PoolState τ) (t : τ) (pre post : List τ) (hr : s.running = pre ++ t :: post) :
      PoolStep τ s { s with running := pre ++ post }

/-- A synthetic group tree used as fixture for the recursion claims: a node
identifier together with the list of child subtrees. -/
inductive GTree where
  | mk : Nat → List GTree → GTree

/-- Identifier of the root node of a tree. -/
def GTree.rootId : GTree → Nat
  | .mk n _ => n

/-- The child subtrees of the root node. -/
def GTree.children : GTree → List GTree
  | .mk _ cs => cs

/-- The Group record the fixture API serves for a node. -/
def GTree.toGroup (t : GTree) : Group :=
  { id := t.rootId, name := "g" ++ toString t.rootId, path := "g" ++ toString t.rootId,
    fullPath := "g" ++ toString t.rootId, webURL := "" }

/-- The Group records of the direct children, one subgroup-listing page. -/
def GTree.childGroups (t : GTree) : List Group :=
  t.children.map GTree.toGroup

mutual
/-- All nodes of a tree, in preorder. -/
def GTree.nodes : GTree → List GTree
  | .mk n cs => .mk n cs :: GTree.nodesList cs
/-- All nodes of a forest, in preorder. -/
def GTree.nodesList : List GTree → List GTree
  | [] => []
  | t :: ts => GTree.nodes t ++ GTree.nodesList ts
end

mutual
/-- The Group records of all nodes of a tree, in preorder. -/
def GTree.allGroups : GTree → List Group
  | .mk n cs => GTree.toGroup (.mk n cs) :: GTree.allGroupsList cs
/-- The Group records of all nodes of a forest, in preorder. -/
def GTree.allGroupsList : List GTree → List Group
  | [] => []
  | t :: ts => GTree.allGroups t ++ GTree.allGroupsList ts
end

/-- All node identifiers of a tree, in preorder. -/
def GTree.allIds (t : GTree) : List Nat :=
  t.allGroups.map Group.id

mutual
/-- The groups the walker still reaches from a node when the subgroup
listings of the nodes in `bad` fail: the node itself plus, unless its own
listing fails, the reachable groups of its children. -/
def GTree.reach (bad : List Nat) : GTree → List Group
  | .mk n cs =>
    GTree.toGroup (.mk n cs) :: (if n ∈ bad then [] else GTree.reachList bad cs)
/-- Reachable groups of a forest. -/
def GTree.reachList (bad : List Nat) : List GTree → List Group
  | [] => []
  | t :: ts => GTree.reach bad t ++ GTree.reachList bad ts
end

mutual
/-- The groups the walker loses below a node when the subgroup listings of
the nodes in `bad` fail: the node's whole strict-descendant set when its own
listing fails, else whatever is lost below its children. -/
def GTree.lost (bad : List Nat) : GTree → List Group
  | .mk n cs => if n ∈ bad then GTree.allGroupsList cs else GTree.lostList bad cs
/-- Lost groups of a forest. -/
def GTree.lostList (bad : List Nat) : List GTree → List Group
  | [] => []
  | t :: ts => GTree.lost bad t ++ GTree.lostList bad ts
end

/-- What the pool task for one node appends beyond what its parent already
appended: nothing when the node's own subgroup listing fails, else its
children together with everything their recursive tasks append. -/
def GTree.spill (bad : List Nat) (t : GTree) : List Group :=
  if t.rootId ∈ bad then [] else GTree.reachList bad t.children

/-- Fixture lookup: the tree node whose decimal identifier is `s`. -/
def GTree.findNode (t : GTree) (s : String) : Option GTree :=
  t.nodes.find? (fun n => toString n.rootId == s)

/-- The fixture API for a synthetic tree: the root lookup serves any node by
decimal identifier; the subgroup listing serves each node's children in a
single page, except that listings for nodes in `bad` fail. The remaining
capabilities are unused by the tree walker. -/
def treeAPI (t : GTree) (bad : List Nat) : API where
  getGroup s :=
    match t.findNode s with
    | some n => .ok n.toGroup
    | none => .error "404 group not found"
  listGroups _ := .error "unused"
  listSubGroups s _ :=
    match t.findNode s with
    | some n =>
      if n.rootId ∈ bad then .error "503 service unavailable"
      else .ok { items := n.childGroups, nextPage := 0 }
    | none => .ok { items := [], nextPage := 0 }
  listGroupProjects _ _ := .error "unused"
  getProject _ := .error "unused"
  listGroupAccessTokens _ _ _ := .error "unused"
  listProjectAccessTokens _ _ _ := .error "unused"
  listPipelineTriggers _ _ := .error "unused"
  listProjectVariables _ _ := .error "unused"
  listGroupVariables _ _ := .error "unused"

/-- The perfect synthetic tree of branching factor `b` and depth `d` (heap
style labelling: node `x` has children `x*b + 1 … x*b + b`). -/
def perfectTree (b : Nat) : Nat → Nat → GTree
  | 0, x => .mk x []
  | d + 1, x => .mk x ((List.range b).map (fun i => perfectTree b d (x * b + i + 1)))

/-- A fixture paginated source serving `items` in pages of `maxPageSize`
items, the next-page cursor pointing at the following page while items
remain. -/
def pagedSource {α : Type} (items : List α) : Nat → Except String (PageResp α) :=
  fun page =>
    .ok { items := (items.drop ((page - 1) * maxPageSize)).take maxPageSize,
          nextPage := if items.length ≤ page * maxPageSize then 0 else page + 1 }

/-- A fixture API that fails every call; concrete fixtures override single
fields. -/
def errAPI : API where
  getGroup _ := .error "unused"
  listGroups _ := .error "unused"
  listSubGroups _ _ := .error "unused"
  listGroupProjects _ _ := .error "unused"
  getProject _ := .error "unused"
  listGroupAccessTokens _ _ _ := .error "unused"
  listProjectAccessTokens _ _ _ := .error "unused"
  listPipelineTriggers _ _ := .error "unused"
  listProjectVariables _ _ := .error "unused"
  listGroupVariables _ _ := .error "unused"

/-- A concrete group fixture. -/
def g0 : Group :=
  { id := 1, name := "grp", path := "grp", fullPath := "org/grp", webURL := "https://x/grp" }

/-- A concrete project fixture. -/
def p0 : Project :=
  { id := 10, name := "prj", pathWithNamespace := "org/prj", namespaceFullPath := "org",
    webURL := "https://x/prj" }

/-- A stale upstream that returns one inactive token even when queried with
the active-only state filter (and also when queried without a filter). -/
def staleTokenAPI : API :=
  { errAPI with
    listGroupAccessTokens := fun _ _ _ =>
      .ok { items := [{ name := "stale", active := false }], nextPage := 0 },
    listProjectAccessTokens := fun _ _ _ =>
      .ok { items := [{ name := "stale", active := false }], nextPage := 0 } }

/-- A fixture API with a single group and no subgroups. -/
def singleGroupAPI : API :=
  { errAPI with
    getGroup := fun _ => .ok g0,
    listSubGroups := fun _ _ => .ok { items := [], nextPage := 0 } }

/-- A fixture API in which every lookup and listing succeeds with one item. -/
def happyAPI : API where
  getGroup _ := .ok g0
  listGroups _ := .ok { items := [g0], nextPage := 0 }
  listSubGroups _ _ := .ok { items := [], nextPage := 0 }
  listGroupProjects _ _ := .ok { items := [p0], nextPage := 0 }
  getProject _ := .ok p0
  listGroupAccessTokens _ _ _ :=
    .ok { items := [{ name := "t1", active := true }], nextPage := 0 }
  listProjectAccessTokens _ _ _ :=
    .ok { items := [{ name := "t2", active := true }], nextPage := 0 }
  listPipelineTriggers _ _ := .ok { items := [{ description := "tr" }], nextPage := 0 }
  listProjectVariables _ _ := .ok { items := [{ key := "k", value := "v" }], nextPage := 0 }
  listGroupVariables _ _ := .ok { items := [{ key := "k", value := "v" }], nextPage := 0 }

/-- A second concrete group fixture (a subgroup of `g0`). -/
def g1 : Group :=
  { id := 2, name := "sub", path := "sub", fullPath := "org/grp/sub",
    webURL := "https://x/sub" }

/-- A concrete project fixture with a larger identifier. -/
def p1 : Project :=
  { id := 20, name := "beta", pathWithNamespace := "org/beta", namespaceFullPath := "org",
    webURL := "https://x/beta" }

/-- A concrete project fixture with a smaller identifier. -/
def p2 : Project :=
  { id := 5, name := "alfa", pathWithNamespace := "org/alfa", namespaceFullPath := "org",
    webURL := "https://x/alfa" }

/-- A fixture where two groups contribute overlapping project sets: the root
group owns projects 20 and 10, its subgroup contributes 10 and 5 again. -/
def overlapAPI : API :=
  { errAPI with
    getGroup := fun _ => .ok g0,
    listSubGroups := fun s _ =>
      if s = "1" then .ok { items := [g1], nextPage := 0 }
      else .ok { items := [], nextPage := 0 },
    listGroupProjects := fun s _ =>
      if s = g0.fullPath then .ok { items := [p1, p0], nextPage := 0 }
      else .ok { items := [p0, p2], nextPage := 0 } }

instance : IsTotal Project (fun a b => a.id ≤ b.id) :=
  ⟨fun a b => Nat.le_total a.id b.id⟩

instance : IsTrans Project (fun a b => a.id ≤ b.id) :=
  ⟨fun _ _ _ h1 h2 => Nat.le_trans h1 h2⟩

instance : IsAntisymm Project (fun a b => a.id < b.id) :=
  ⟨fun _ _ h1 h2 => absurd h2 (Nat.lt_asymm h1)⟩

/-- A concrete synthetic tree: root 1 with children 2 and 3, node 2 having
one child 4 (the spec's concrete scenario). -/
def tEx : GTree :=
  .mk 1 [.mk 2 [.mk 4 []], .mk 3 []]

/-!  Theorems. -/

/-- Helper: a node's fixture group carries the node's identifier. -/
theorem GTree.toGroup_id (t : GTree) : t.toGroup.id = t.rootId := rfl

/-- Helper: every tree contains itself among its nodes. -/
theorem GTree.self_mem_nodes : ∀ t : GTree, t ∈ t.nodes
  | .mk n cs => by rw [GTree.nodes]; exact List.mem_cons_self _ _

/-- Helper: a member of a forest is among the forest's nodes. -/
theorem GTree.mem_nodesList_of_mem : ∀ (ts : List GTree) (c : GTree), c ∈ ts →
    c ∈ GTree.nodesList ts := by
  intro ts
  induction ts with
  | nil => intro c hc; cases hc
  | cons t ts ih =>
    intro c hc
    rw [GTree.nodesList]
    rcases List.mem_cons.mp hc with h | h
    · subst h
      exact List.mem_append.mpr (Or.inl (GTree.self_mem_nodes c))
    · exact List.mem_append.mpr (Or.inr (ih c h))

mutual
/-- Helper: node membership is transitive through subtrees. -/
theorem GTree.nodes_trans : ∀ (t n x : GTree), n ∈ t.nodes → x ∈ n.nodes → x ∈ t.nodes
  | .mk i cs, n, x, hn, hx => by
    rw [GTree.nodes] at hn ⊢
    rcases List.mem_cons.mp hn with h | h
    · subst h
      rw [GTree.nodes] at hx
      exact hx
    · exact List.mem_cons_of_mem _ (GTree.nodesList_trans cs n x h hx)
/-- Helper: node membership in a forest is transitive through subtrees. -/
theorem GTree.nodesList_trans : ∀ (ts : List GTree) (n x : GTree),
    n ∈ GTree.nodesList ts → x ∈ n.nodes → x ∈ GTree.nodesList ts
  | [], n, x, hn, _ => by rw [GTree.nodesList] at hn; cases hn
  | t :: ts, n, x, hn, hx => by
    rw [GTree.nodesList] at hn ⊢
    rcases List.mem_append.mp hn with h | h
    · exact List.mem_append.mpr (Or.inl (GTree.nodes_trans t n x h hx))
    · exact List.mem_append.mpr (Or.inr (GTree.nodesList_trans ts n x h hx))
end

/-- Helper: a direct child is among a tree's nodes. -/
theorem GTree.children_mem_nodes : ∀ (t c : GTree), c ∈ t.children → c ∈ t.nodes
  | .mk i cs, c, hc => by
    rw [GTree.children] at hc
    rw [GTree.nodes]
    exact List.mem_cons_of_mem _ (GTree.mem_nodesList_of_mem cs c hc)

mutual
/-- Helper: the node list and the group list enumerate the same tree. -/
theorem GTree.nodes_map_toGroup : ∀ t : GTree, t.nodes.map GTree.toGroup = t.allGroups
  | .mk n cs => by
    rw [GTree.nodes, GTree.allGroups, List.map_cons,
      GTree.nodesList_map_toGroup cs]
/-- Helper: the forest node list and group list enumerate the same forest. -/
theorem GTree.nodesList_map_toGroup : ∀ ts : List GTree,
    (GTree.nodesList ts).map GTree.toGroup = GTree.allGroupsList ts
  | [] => by rw [GTree.nodesList, GTree.allGroupsList]; rfl
  | t :: ts => by
    rw [GTree.nodesList, GTree.allGroupsList, List.map_append,
      GTree.nodes_map_toGroup t, GTree.nodesList_map_toGroup ts]
end

/-- Helper: in a list whose images under `f` are duplicate-free, searching
for the image of a member finds exactly that member. -/
theorem find?_map_nodup {α β : Type} [BEq β] [LawfulBEq β] (f : α → β) :
    ∀ (l : List α) (a : α), (l.map f).Nodup → a ∈ l →
      l.find? (fun x => f x == f a) = some a := by
  intro l
  induction l with
  | nil => intro a _ ha; cases ha
  | cons x xs ih =>
    intro a hnd ha
    rw [List.map_cons, List.nodup_cons] at hnd
    by_cases hbe : f x = f a
    · have hxa : x = a := by
        by_contra hne
        have hmem : a ∈ xs := by
          rcases List.mem_cons.mp ha with h | h
          · exact absurd h.symm hne
          · exact h
        exact hnd.1 (hbe ▸ List.mem_map.mpr ⟨a, hmem, rfl⟩)
      subst hxa
      simp [List.find?_cons]
    · have hmem : a ∈ xs := by
        rcases List.mem_cons.mp ha with h | h
        · exact absurd (congrArg f h.symm) hbe
        · exact h
      have hfx : (f x == f a) = false := by
        simpa using hbe
      rw [List.find?_cons, hfx]
      exact ih a hnd.2 hmem

/-- Helper: unfolding the fixture root lookup. -/
theorem treeAPI_getGroup (t : GTree) (bad : List Nat) (s : String) :
    (treeAPI t bad).getGroup s
      = match t.findNode s with
        | some n => .ok n.toGroup
        | none => .error "404 group not found" := rfl

/-- Helper: unfolding the fixture subgroup listing. -/
theorem treeAPI_listSubGroups (t : GTree) (bad : List Nat) (s : String) (p : Nat) :
    (treeAPI t bad).listSubGroups s p
      = match t.findNode s with
        | some n =>
          if n.rootId ∈ bad then .error "503 service unavailable"
          else .ok { items := n.childGroups, nextPage := 0 }
        | none => .ok { items := [], nextPage := 0 } := rfl

/-- Helper: the identifier strings of the tree nodes are duplicate-free when
the hypothesis of the tree theorems says so. -/
theorem nodes_idString_nodup (t : GTree)
    (hnd : ((t.allIds).map toString).Nodup) :
    (t.nodes.map (fun m => toString m.rootId)).Nodup := by
  have h1 : t.allIds.map toString = t.nodes.map (fun m => toString m.rootId) := by
    rw [GTree.allIds, ← GTree.nodes_map_toGroup, List.map_map, List.map_map]
    rfl
  rwa [h1] at hnd

/-- Helper: the fixture lookup of a node's own identifier string finds that
node. -/
theorem findNode_self (t : GTree) (hnd : ((t.allIds).map toString).Nodup)
    (n : GTree) (hn : n ∈ t.nodes) : t.findNode (toString n.rootId) = some n := by
  rw [GTree.findNode]
  exact find?_map_nodup (fun m => toString m.rootId) t.nodes n
    (nodes_idString_nodup t hnd) hn

/-- Helper: one fetchSubgroups page loop on the tree fixture returns the
node's children in a single page, or nothing when the node's listing fails. -/
theorem fetchSubgroupPages_treeAPI (t : GTree) (bad : List Nat)
    (hnd : ((t.allIds).map toString).Nodup) (n : GTree) (hn : n ∈ t.nodes) (pf : Nat) :
    fetchSubgroupPages (treeAPI t bad) (pf + 1) (toString n.rootId) 1 []
      = some (if n.rootId ∈ bad then [] else n.childGroups) := by
  rw [fetchSubgroupPages, treeAPI_listSubGroups, findNode_self t hnd n hn]
  dsimp only
  by_cases hbad : n.rootId ∈ bad
  · rw [if_pos hbad, if_pos hbad]
  · rw [if_neg hbad, if_neg hbad]
    simp

/-- Helper: unfolding one step of the shared project map fold. -/
theorem mergeProjects_cons (m : List Project) (p : Project) (ps : List Project) :
    mergeProjects m (p :: ps) = mergeProjects (insertProjectIfAbsent m p) ps := rfl

/-- Helper: the guarded insert keeps the project identifiers duplicate-free. -/
theorem insertProjectIfAbsent_nodup (m : List Project) (p : Project)
    (h : (m.map Project.id).Nodup) :
    ((insertProjectIfAbsent m p).map Project.id).Nodup := by
  rw [insertProjectIfAbsent]
  by_cases hmem : m.any (fun q => q.id == p.id)
  · rw [if_pos hmem]
    exact h
  · rw [if_neg hmem]
    have hp : p.id ∉ m.map Project.id := by
      simp only [List.any_eq_true, beq_iff_eq] at hmem
      simp only [List.mem_map]
      rintro ⟨q, hq, hqid⟩
      exact hmem ⟨q, hq, hqid⟩
    simp only [List.map_append, List.map_cons, List.map_nil]
    exact List.Nodup.append h (List.nodup_singleton _)
      (by
        intro x hx hx'
        simp only [List.mem_singleton] at hx'
        exact hp (hx' ▸ hx))

/-- Helper: merging a fetched project list keeps identifiers duplicate-free. -/
theorem mergeProjects_nodup : ∀ (ps m : List Project), (m.map Project.id).Nodup →
    ((mergeProjects m ps).map Project.id).Nodup := by
  intro ps
  induction ps with
  | nil => intro m h; exact h
  | cons p ps ih =>
    intro m h
    rw [mergeProjects_cons]
    exact ih _ (insertProjectIfAbsent_nodup m p h)

/-- Helper: identifier membership after a guarded insert. -/
theorem mem_insertProjectIfAbsent_id (m : List Project) (p : Project) (x : Nat) :
    x ∈ (insertProjectIfAbsent m p).map Project.id
      ↔ (x ∈ m.map Project.id ∨ x = p.id) := by
  rw [insertProjectIfAbsent]
  by_cases hmem : m.any (fun q => q.id == p.id)
  · rw [if_pos hmem]
    simp only [List.any_eq_true, beq_iff_eq] at hmem
    obtain ⟨q, hq, hqid⟩ := hmem
    constructor
    · exact Or.inl
    · rintro (h | rfl)
      · exact h
      · exact List.mem_map.mpr ⟨q, hq, hqid⟩
  · rw [if_neg hmem]
    simp

/-- Helper: identifier membership after merging a fetched project list. -/
theorem mem_mergeProjects_id : ∀ (ps m : List Project) (x : Nat),
    x ∈ (mergeProjects m ps).map Project.id
      ↔ (x ∈ m.map Project.id ∨ x ∈ ps.map Project.id) := by
  intro ps
  induction ps with
  | nil => intro m x; simp [mergeProjects]
  | cons p ps ih =>
    intro m x
    rw [mergeProjects_cons, ih, mem_insertProjectIfAbsent_id]
    simp only [List.map_cons, List.mem_cons]
    tauto

/-- Helper: the project fan-out keeps identifiers duplicate-free. -/
theorem gatherProjects_nodup (api : API) (fuel : Nat) :
    ∀ (gs : List Group) (m out : List Project),
      gatherProjects api fuel gs m = some out →
      (m.map Project.id).Nodup → (out.map Project.id).Nodup := by
  intro gs
  induction gs with
  | nil =>
    intro m out h hnd
    rw [gatherProjects] at h
    cases h
    exact hnd
  | cons g gs ih =>
    intro m out h hnd
    rw [gatherProjects] at h
    cases hf : fetchProjectsForGroupWithDedupe api fuel g.fullPath with
    | none => rw [hf] at h; exact absurd h (by simp)
    | some pr =>
      rw [hf] at h
      obtain ⟨ps, err⟩ := pr
      cases err with
      | none => exact ih _ out h (mergeProjects_nodup ps m hnd)
      | some e => exact ih _ out h hnd

/-- Helper: an identifier lands in the fan-out's shared map exactly when it
was already there or some group's successful fetch produced it. -/
theorem mem_gatherProjects_id (api : API) (fuel : Nat) :
    ∀ (gs : List Group) (m out : List Project) (x : Nat),
      gatherProjects api fuel gs m = some out →
      (x ∈ out.map Project.id ↔
        (x ∈ m.map Project.id
          ∨ ∃ g ∈ gs, ∃ ps, fetchProjectsForGroupWithDedupe api fuel g.fullPath
              = some (ps, none) ∧ x ∈ ps.map Project.id)) := by
  intro gs
  induction gs with
  | nil =>
    intro m out x h
    rw [gatherProjects] at h
    cases h
    simp
  | cons g gs ih =>
    intro m out x h
    rw [gatherProjects] at h
    cases hf : fetchProjectsForGroupWithDedupe api fuel g.fullPath with
    | none => rw [hf] at h; exact absurd h (by simp)
    | some pr =>
      rw [hf] at h
      obtain ⟨ps, err⟩ := pr
      cases err with
      | none =>
        rw [ih _ out x h, mem_mergeProjects_id]
        simp only [List.mem_cons]
        constructor
        · rintro ((hm | hps) | ⟨g2, hg2, qs, hqs, hx⟩)
          · exact Or.inl hm
          · exact Or.inr ⟨g, Or.inl rfl, ps, hf, hps⟩
          · exact Or.inr ⟨g2, Or.inr hg2, qs, hqs, hx⟩
        · rintro (hm | ⟨g2, hg2 | hg2, qs, hqs, hx⟩)
          · exact Or.inl (Or.inl hm)
          · subst hg2
            rw [hf] at hqs
            obtain ⟨rfl⟩ : qs = ps := by
              simpa using hqs.symm
            exact Or.inl (Or.inr hx)
          · exact Or.inr ⟨g2, hg2, qs, hqs, hx⟩
      | some e =>
        rw [ih _ out x h]
        simp only [List.mem_cons]
        constructor
        · rintro (hm | ⟨g2, hg2, qs, hqs, hx⟩)
          · exact Or.inl hm
          · exact Or.inr ⟨g2, Or.inr hg2, qs, hqs, hx⟩
        · rintro (hm | ⟨g2, hg2 | hg2, qs, hqs, hx⟩)
          · exact Or.inl hm
          · subst hg2
            rw [hf] at hqs
            exact absurd hqs (by simp)
          · exact Or.inr ⟨g2, hg2, qs, hqs, hx⟩

/-- Helper: the final sort is ascending in the (non-strict) ID order. -/
theorem sortProjectsByID_sorted (l : List Project) :
    List.Sorted (fun a b : Project => a.id ≤ b.id) (sortProjectsByID l) :=
  List.sorted_insertionSort _ l

/-- Helper: with duplicate-free identifiers the sort is strictly ascending. -/
theorem sortProjectsByID_strict (l : List Project) (h : (l.map Project.id).Nodup) :
    List.Pairwise (fun a b : Project => a.id < b.id) (sortProjectsByID l) := by
  have hs := sortProjectsByID_sorted l
  have hperm : (sortProjectsByID l).Perm l := List.perm_insertionSort _ l
  have hnd : ((sortProjectsByID l).map Project.id).Nodup :=
    ((hperm.map Project.id).nodup_iff).mpr h
  have hne : List.Pairwise (fun a b : Project => a.id ≠ b.id) (sortProjectsByID l) :=
    List.pairwise_map.mp hnd
  exact (hs.and hne).imp (fun hab => Nat.lt_of_le_of_ne hab.1 hab.2)

/-- Helper: two permutation-equivalent duplicate-free-by-ID collections sort
to the very same sequence — the concurrent accumulation order cannot change
the final output. -/
theorem sortProjectsByID_perm_eq (l1 l2 : List Project) (hp : l1.Perm l2)
    (hnd : (l1.map Project.id).Nodup) :
    sortProjectsByID l1 = sortProjectsByID l2 := by
  have h1 := sortProjectsByID_strict l1 hnd
  have hnd2 : (l2.map Project.id).Nodup := ((hp.map Project.id).nodup_iff).mp hnd
  have h2 := sortProjectsByID_strict l2 hnd2
  have hperm : (sortProjectsByID l1).Perm (sortProjectsByID l2) :=
    (List.perm_insertionSort _ l1).trans (hp.trans (List.perm_insertionSort _ l2).symm)
  exact List.eq_of_perm_of_sorted hperm h1 h2

/-- C2: a successful recursive project derivation is strictly ascending in
the numeric project ID (hence each ID appears exactly once); an ID is in the
result exactly when some group's successful project fetch produced it; and
the sort step maps any two accumulation orders of the same duplicate-free
project map to the same output sequence. -/
theorem projectDedupSort (api : API) (fuel : Nat) (groupID : String)
    (groups : List Group) (ps : List Project)
    (hg : getGroupsRecursively api fuel groupID = some (.ok groups))
    (hp : getProjectsRecursively api fuel groupID = some (.ok ps)) :
    List.Pairwise (fun a b : Project => a.id < b.id) ps
    ∧ (∀ x : Nat, x ∈ ps.map Project.id ↔
        ∃ g ∈ groups, ∃ qs, fetchProjectsForGroupWithDedupe api fuel g.fullPath
            = some (qs, none) ∧ x ∈ qs.map Project.id)
    ∧ (∀ l1 l2 : List Project, l1.Perm l2 → (l1.map Project.id).Nodup →
        sortProjectsByID l1 = sortProjectsByID l2) := by
  rw [getProjectsRecursively, hg] at hp
  dsimp only at hp
  cases hgather : gatherProjects api fuel groups [] with
  | none => rw [hgather] at hp; exact absurd hp (by simp)
  | some m =>
    rw [hgather] at hp
    have hm : sortProjectsByID m = ps := by simpa using hp
    have hnd := gatherProjects_nodup api fuel groups [] m hgather (by simp)
    refine ⟨?_, ?_, sortProjectsByID_perm_eq⟩
    · rw [← hm]
      exact sortProjectsByID_strict m hnd
    · intro x
      have hmem := mem_gatherProjects_id api fuel groups [] m x hgather
      have hpm : (sortProjectsByID m).Perm m := List.perm_insertionSort _ m
      rw [← hm, (hpm.map Project.id).mem_iff]
      simpa using hmem

/-- Witness for C2 on the overlapping fixture: project 10 is contributed by
both groups yet appears once, between 5 and 20. -/
theorem projectDedupSort_witness :
    List.Pairwise (fun a b : Project => a.id < b.id) [p2, p0, p1] :=
  (projectDedupSort overlapAPI 3 "1" [g0, g1] [p2, p0, p1] rfl rfl).1

/-- Helper: the tree walk only ever appends to the shared collection handed
to it (each task takes the mutex and appends; nothing is removed or
reordered). -/
theorem walkSubgroups_append_only (api : API) (pf : Nat) :
    ∀ (fuel : Nat) (queue : List String) (acc gs : List Group),
      walkSubgroups api pf fuel queue acc = some gs → ∃ tail, gs = acc ++ tail := by
  intro fuel
  induction fuel with
  | zero =>
    intro queue acc gs h
    cases queue with
    | nil =>
      refine ⟨[], ?_⟩
      simp only [walkSubgroups, Option.some.injEq] at h
      simp [h.symm]
    | cons p q => simp [walkSubgroups] at h
  | succ f ih =>
    intro queue acc gs h
    cases queue with
    | nil =>
      refine ⟨[], ?_⟩
      simp only [walkSubgroups, Option.some.injEq] at h
      simp [h.symm]
    | cons p q =>
      rw [walkSubgroups] at h
      cases hf : fetchSubgroupPages api pf p 1 [] with
      | none => rw [hf] at h; exact absurd h (by simp)
      | some children =>
        rw [hf] at h
        obtain ⟨tail, htail⟩ := ih _ _ _ h
        exact ⟨children ++ tail, by simp [htail]⟩

/-- C4: for a non-empty root identifier, a failing root lookup makes
`GetGroupsRecursively` return an error wrapping the cause and no groups at
all, whatever the subgroup listings would have produced. -/
theorem rootFailureFatal (api : API) (fuel : Nat) (groupID : String) (e : String)
    (hne : groupID ≠ "") (herr : api.getGroup groupID = .error e) :
    getGroupsRecursively api fuel groupID =
      some (.error ("failed to get root group: " ++ e)) := by
  simp [getGroupsRecursively, hne, herr]

/-- Witness for C4 at a concrete fixture. -/
theorem rootFailureFatal_witness :
    getGroupsRecursively errAPI 3 "42" =
      some (.error ("failed to get root group: " ++ "unused")) :=
  rootFailureFatal errAPI 3 "42" "unused" (by decide) rfl

/-- C8: with the empty root identifier the walker performs the flat
paginated listing of all accessible groups; the result never consults the
root-lookup or subgroup-listing capabilities, so it coincides with
`GetAllGroups` however those capabilities behave. -/
theorem emptyRootFlatListing (api : API) (fuel : Nat)
    (g : String → Except String Group)
    (s : String → Nat → Except String (PageResp Group)) :
    getGroupsRecursively { api with getGroup := g, listSubGroups := s } fuel ""
      = getAllGroups api fuel := by
  simp [getGroupsRecursively, getAllGroups]

/-- C10: a successful recursive walk with a non-empty root identifier
returns a non-empty collection whose first element is the root group: the
root is appended before any task runs and tasks only append. -/
theorem rootFirstInvariant (api : API) (fuel : Nat) (groupID : String)
    (rootGroup : Group) (gs : List Group) (hne : groupID ≠ "")
    (hroot : api.getGroup groupID = .ok rootGroup)
    (hres : getGroupsRecursively api fuel groupID = some (.ok gs)) :
    gs ≠ [] ∧ gs.head? = some rootGroup := by
  rw [getGroupsRecursively, if_neg hne, hroot] at hres
  dsimp only at hres
  cases hw : walkSubgroups api fuel fuel [groupID] [rootGroup] with
  | none => rw [hw] at hres; exact absurd hres (by simp)
  | some groups =>
    rw [hw] at hres
    have hgs : groups = gs := by simpa using hres
    subst hgs
    obtain ⟨tail, ht⟩ := walkSubgroups_append_only api fuel fuel [groupID] [rootGroup] groups hw
    subst ht
    exact ⟨by simp, by simp⟩

/-- Witness for C10 at a concrete fixture. -/
theorem rootFirstInvariant_witness :
    ([g0] : List Group) ≠ [] ∧ ([g0] : List Group).head? = some g0 :=
  rootFirstInvariant singleGroupAPI 2 "1" g0 [g0] (by decide) rfl rfl

/-- C9: the pool records exactly `n` workers, the task queue capacity is
exactly `2 × n`, a submit step is always available while the queue has room
and lands the task at the tail of the queue (there is no error or drop
outcome), and from a full-queue state no step enlarges the queue — the
submitter can only wait for a worker to drain it. -/
theorem poolContract (τ : Type) (n : Nat) :
    (newPool τ n).workers = n
    ∧ (newPool τ n).queueCap = 2 * n
    ∧ (∀ (s : PoolState τ) (t : τ), s.queue.length < s.queueCap →
        PoolStep τ s { s with queue := s.queue ++ [t] })
    ∧ (∀ (s after : PoolState τ), s.queue.length = s.queueCap → PoolStep τ s after →
        after.queue.length < s.queue.length ∨ after.queue = s.queue) := by
  refine ⟨rfl, by simp [newPool, taskQueueBufferMultiplier, Nat.mul_comm], ?_, ?_⟩
  · intro s t h
    exact PoolStep.submit s t h
  · intro s after hfull hstep
    cases hstep with
    | submit t h => exact absurd hfull (Nat.ne_of_lt h)
    | start t rest hq h =>
      left
      rw [hq]
      simp
    | finish t pre post hr => right; rfl

/-- Witness for C9 at a concrete pool. -/
theorem poolContract_witness :
    (newPool Nat 3).workers = 3 ∧ (newPool Nat 3).queueCap = 2 * 3
    ∧ PoolStep Nat (newPool Nat 3)
        { newPool Nat 3 with queue := (newPool Nat 3).queue ++ [7] } :=
  ⟨(poolContract Nat 3).1, (poolContract Nat 3).2.1,
    (poolContract Nat 3).2.2.1 (newPool Nat 3) 7 (by decide)⟩

/-- C6: each single-target entry point succeeds exactly when both the
initial target lookup and the sub-resource listing succeed; any failure of
either is propagated and no result collection is returned. -/
theorem singleTargetFailFast (api : API) (fuel : Nat) :
    (∀ pid incl ts, getProjectAccessTokens api fuel pid incl = some (.ok ts) ↔
       ∃ p, api.getProject pid = .ok p
         ∧ listTokensForProject api fuel pid p incl = some (.ok ts))
    ∧ (∀ gid incl ts, getGroupAccessTokens api fuel gid incl = some (.ok ts) ↔
       ∃ g, api.getGroup gid = .ok g
         ∧ listTokensForGroup api fuel gid g incl = some (.ok ts))
    ∧ (∀ pid ts, getPipelineTriggers api fuel pid = some (.ok ts) ↔
       ∃ p, api.getProject pid = .ok p
         ∧ listTriggersForProject api fuel pid p = some (.ok ts))
    ∧ (∀ pid vs, getProjectVariables api fuel pid = some (.ok vs) ↔
       ∃ p, api.getProject pid = .ok p
         ∧ listVariablesForProject api fuel pid p = some (.ok vs))
    ∧ (∀ gid vs, getGroupVariables api fuel gid = some (.ok vs) ↔
       ∃ g, api.getGroup gid = .ok g
         ∧ listVariablesForGroup api fuel gid g = some (.ok vs)) := by
  refine ⟨?_, ?_, ?_, ?_, ?_⟩
  · intro pid incl ts
    constructor
    · intro h
      rw [getProjectAccessTokens] at h
      cases hp : api.getProject pid with
      | error e => rw [hp] at h; exact absurd h (by simp)
      | ok p =>
        rw [hp] at h
        dsimp only at h
        refine ⟨p, rfl, ?_⟩
        cases hl : listTokensForProject api fuel pid p incl with
        | none => rw [hl] at h; exact absurd h (by simp)
        | some r =>
          rw [hl] at h
          cases r with
          | error e => exact absurd h (by simp)
          | ok l => simpa using h
    · rintro ⟨p, hp, hl⟩
      rw [getProjectAccessTokens, hp]
      dsimp only
      rw [hl]
  · intro gid incl ts
    constructor
    · intro h
      rw [getGroupAccessTokens] at h
      cases hp : api.getGroup gid with
      | error e => rw [hp] at h; exact absurd h (by simp)
      | ok g =>
        rw [hp] at h
        exact ⟨g, rfl, h⟩
    · rintro ⟨g, hp, hl⟩
      rw [getGroupAccessTokens, hp]
      exact hl
  · intro pid ts
    constructor
    · intro h
      rw [getPipelineTriggers] at h
      cases hp : api.getProject pid with
      | error e => rw [hp] at h; exact absurd h (by simp)
      | ok p =>
        rw [hp] at h
        exact ⟨p, rfl, h⟩
    · rintro ⟨p, hp, hl⟩
      rw [getPipelineTriggers, hp]
      exact hl
  · intro pid vs
    constructor
    · intro h
      rw [getProjectVariables] at h
      cases hp : api.getProject pid with
      | error e => rw [hp] at h; exact absurd h (by simp)
      | ok p =>
        rw [hp] at h
        dsimp only at h
        refine ⟨p, rfl, ?_⟩
        cases hl : listVariablesForProject api fuel pid p with
        | none => rw [hl] at h; exact absurd h (by simp)
        | some r =>
          rw [hl] at h
          cases r with
          | error e => exact absurd h (by simp)
          | ok l => simpa using h
    · rintro ⟨p, hp, hl⟩
      rw [getProjectVariables, hp]
      dsimp only
      rw [hl]
  · intro gid vs
    constructor
    · intro h
      rw [getGroupVariables] at h
      cases hp : api.getGroup gid with
      | error e => rw [hp] at h; exact absurd h (by simp)
      | ok g =>
        rw [hp] at h
        dsimp only at h
        refine ⟨g, rfl, ?_⟩
        cases hl : listVariablesForGroup api fuel gid g with
        | none => rw [hl] at h; exact absurd h (by simp)
        | some r =>
          rw [hl] at h
          cases r with
          | error e => exact absurd h (by simp)
          | ok l => simpa using h
    · rintro ⟨g, hp, hl⟩
      rw [getGroupVariables, hp]
      dsimp only
      rw [hl]

/-- Witness for C6 at a concrete fixture. -/
theorem singleTargetFailFast_witness :
    getProjectAccessTokens happyAPI 1 "1" false
      = some (.ok [wrapProjectToken p0 { name := "t2", active := true }]) :=
  ((singleTargetFailFast happyAPI 1).1 "1" false
    [wrapProjectToken p0 { name := "t2", active := true }]).mpr ⟨p0, rfl, rfl⟩

/-- Helper: the project-token page loop with `includeInactive = false` only
ever appends tokens whose active flag is set, whatever the remote returns. -/
theorem listProjectTokenPages_active (api : API) (projectID : String) (p : Project)
    (state : Option String) :
    ∀ (fuel page : Nat) (acc ts : List ProjectAccessTokenWithProject),
      (∀ tw ∈ acc, tw.token.active = true) →
      listProjectTokenPages api projectID p false state fuel page acc = some (.ok ts) →
      ∀ tw ∈ ts, tw.token.active = true := by
  intro fuel
  induction fuel with
  | zero =>
    intro page acc ts hacc h
    simp [listProjectTokenPages] at h
  | succ f ih =>
    intro page acc ts hacc h
    rw [listProjectTokenPages] at h
    cases hr : api.listProjectAccessTokens projectID state page with
    | error e => rw [hr] at h; exact absurd h (by simp)
    | ok resp =>
      rw [hr] at h
      dsimp only at h
      have hacc2 : ∀ tw ∈ acc ++ (resp.items.filter
          (fun t => false || t.active)).map (wrapProjectToken p), tw.token.active = true := by
        intro tw htw
        rcases List.mem_append.mp htw with h1 | h2
        · exact hacc tw h1
        · obtain ⟨t, ht, rfl⟩ := List.mem_map.mp h2
          have hf := (List.mem_filter.mp ht).2
          simpa [wrapProjectToken] using hf
      by_cases hnp : resp.nextPage = 0
      · rw [if_pos hnp] at h
        have hts : acc ++ (resp.items.filter
            (fun t => false || t.active)).map (wrapProjectToken p) = ts := by
          simpa using h
        rw [← hts]
        exact hacc2
      · rw [if_neg hnp] at h
        exact ih resp.nextPage _ ts hacc2 h

/-- C1 (counterexample): the remote is queried under the active-only state
filter yet returns a stale inactive token; `listTokensForGroup` with
`includeInactive = false` nevertheless includes that inactive token in its
result — the group-token path has no client-side re-check of the active
flag. -/
theorem groupTokensNoRecheck_counterexample :
    listTokensForGroup staleTokenAPI 1 "1" g0 false
      = some (.ok [wrapGroupToken g0 { name := "stale", active := false }])
    ∧ (wrapGroupToken g0 { name := "stale", active := false }).token.active = false :=
  ⟨rfl, rfl⟩

/-- C1 (amended): the project-token wrapper both parameterizes the query
with the active-state filter and re-checks each token's active flag, so no
inactive token ever appears when `includeInactive` is false; the group-token
wrapper parameterizes the query with the same filter but includes every
returned token as-is; with `includeInactive` true neither wrapper filters and
both pass the state filter `none`. -/
theorem tokenActiveFiltering :
    (∀ (api : API) (fuel : Nat) (pid : String) (p : Project)
       (ts : List ProjectAccessTokenWithProject),
       listTokensForProject api fuel pid p false = some (.ok ts) →
       ∀ tw ∈ ts, tw.token.active = true)
    ∧ (∀ (api : API) (fuel : Nat) (gid : String) (g : Group) (incl : Bool),
       listTokensForGroup api fuel gid g incl =
         listGroupTokenPages api gid g
           (if incl then none else some accessTokenStateActive) fuel 1 [])
    ∧ (∀ (api : API) (fuel : Nat) (pid : String) (p : Project) (incl : Bool),
       listTokensForProject api fuel pid p incl =
         listProjectTokenPages api pid p incl
           (if incl then none else some accessTokenStateActive) fuel 1 [])
    ∧ listTokensForGroup staleTokenAPI 1 "1" g0 true
        = some (.ok [wrapGroupToken g0 { name := "stale", active := false }])
    ∧ listTokensForProject staleTokenAPI 1 "1" p0 true
        = some (.ok [wrapProjectToken p0 { name := "stale", active := false }]) := by
  refine ⟨?_, ?_, ?_, rfl, rfl⟩
  · intro api fuel pid p ts h
    exact listProjectTokenPages_active api pid p _ fuel 1 [] ts (by simp) h
  · intro api fuel gid g incl
    rfl
  · intro api fuel pid p incl
    rfl

/-- Witness for the amended C1 at a concrete fixture: the stale inactive
token is filtered out by the project-token wrapper. -/
theorem tokenActiveFiltering_witness :
    listTokensForProject staleTokenAPI 1 "1" p0 false = some (.ok [])
    ∧ ∀ tw ∈ ([] : List ProjectAccessTokenWithProject), tw.token.active = true :=
  ⟨rfl, tokenActiveFiltering.1 staleTokenAPI 1 "1" p0 [] rfl⟩

/-- Helper: draining the fixture paginated source from any page appends
exactly the items from that page onward. -/
theorem drainPages_pagedSource {α : Type} (items : List α) :
    ∀ (fuel page : Nat) (acc : List α), 1 ≤ page →
      (items.drop ((page - 1) * maxPageSize)).length + 1 ≤ fuel →
      drainPages (pagedSource items) fuel page acc
        = some (.ok (acc ++ items.drop ((page - 1) * maxPageSize))) := by
  intro fuel
  induction fuel with
  | zero =>
    intro page acc hp hf
    omega
  | succ f ih =>
    intro page acc hp hf
    obtain ⟨q, rfl⟩ : ∃ q, page = q + 1 := ⟨page - 1, by omega⟩
    rw [drainPages]
    show (match pagedSource items (q + 1) with
      | Except.error e => some (Except.error e)
      | Except.ok resp =>
        if resp.nextPage = 0 then some (Except.ok (acc ++ resp.items))
        else drainPages (pagedSource items) f resp.nextPage (acc ++ resp.items)) = _
    rw [pagedSource]
    dsimp only
    simp only [Nat.add_sub_cancel] at hf ⊢
    by_cases hle : items.length ≤ (q + 1) * maxPageSize
    · rw [if_pos hle]
      have hlen : (items.drop (q * maxPageSize)).length ≤ maxPageSize := by
        rw [List.length_drop]
        rw [Nat.succ_mul] at hle
        omega
      rw [List.take_of_length_le hlen]
      simp
    · rw [if_neg hle]
      have hne : ¬ (q + 1 + 1 = 0) := by omega
      simp only [if_neg hne]
      have h21 : q + 2 - 1 = q + 1 := by omega
      have hfuel2 : (items.drop ((q + 2 - 1) * maxPageSize)).length + 1 ≤ f := by
        rw [List.length_drop]
        rw [List.length_drop] at hf
        simp only [maxPageSize] at hf hle ⊢
        omega
      have hrec := ih (q + 2) (acc ++ (items.drop (q * maxPageSize)).take maxPageSize)
        (by omega) hfuel2
      rw [h21] at hrec
      have hq2 : q + 1 + 1 = q + 2 := by omega
      rw [hq2, hrec]
      have hsplit : items.drop ((q + 1) * maxPageSize)
          = (items.drop (q * maxPageSize)).drop maxPageSize := by
        rw [List.drop_drop, Nat.succ_mul]
      rw [hsplit, List.append_assoc, List.take_append_drop]

/-- C7: the pagination loops start at page 1 and append page items in order;
the fixture source exposing the items of a list over ⌈N / 50⌉ pages is
drained to exactly that list; the loop stops exactly when the cursor is 0;
a page error stops the loop at once and is propagated, both in the
error-propagating loops (`GetAllGroups` and the token/trigger/variable
listings share this loop shape) and in `fetchProjectsForGroupWithDedupe`,
which returns the partial list together with the error. -/
theorem paginationContract :
    (∀ (α : Type) (items : List α) (fuel : Nat), items.length + 1 ≤ fuel →
       drainPages (pagedSource items) fuel 1 [] = some (.ok items))
    ∧ (∀ (α : Type) (fetch : Nat → Except String (PageResp α)) (fuel page : Nat)
         (acc : List α) (e : String), fetch page = .error e →
       drainPages fetch (fuel + 1) page acc = some (.error e))
    ∧ (∀ (α : Type) (fetch : Nat → Except String (PageResp α)) (fuel page : Nat)
         (acc : List α) (resp : PageResp α), fetch page = .ok resp → resp.nextPage = 0 →
       drainPages fetch (fuel + 1) page acc = some (.ok (acc ++ resp.items)))
    ∧ (∀ (api : API) (fuel : Nat), getAllGroups api fuel = drainPages api.listGroups fuel 1 [])
    ∧ (∀ (api : API) (gid : String) (fuel page : Nat) (acc : List Project) (e : String),
        api.listGroupProjects gid page = .error e →
        fetchProjectPages api (fuel + 1) gid page acc
          = some (acc, some ("failed to fetch projects for group " ++ gid ++ ": " ++ e))) := by
  refine ⟨?_, ?_, ?_, fun _ _ => rfl, ?_⟩
  · intro α items fuel hfuel
    have h := drainPages_pagedSource items fuel 1 [] (by omega) (by simpa using hfuel)
    simpa using h
  · intro α fetch fuel page acc e h
    rw [drainPages, h]
  · intro α fetch fuel page acc resp h h0
    rw [drainPages, h]
    dsimp only
    rw [if_pos h0]
  · intro api gid fuel page acc e h
    rw [fetchProjectPages, h]

/-- Witness for C7: 120 items are served over three pages of 50 and drained
exactly; a failing groups listing propagates its error from the first page. -/
theorem paginationContract_witness :
    drainPages (pagedSource (List.range 120)) 121 1 [] = some (.ok (List.range 120))
    ∧ drainPages (α := Group) errAPI.listGroups 1 1 [] = some (.error "unused") :=
  ⟨paginationContract.1 Nat (List.range 120) 121 (by simp),
   paginationContract.2.1 Group errAPI.listGroups 0 1 [] "unused" rfl⟩

/-- Helper: the group count of a forest is the sum of its trees' counts. -/
theorem allGroupsList_length : ∀ ts : List GTree,
    (GTree.allGroupsList ts).length = (ts.map (fun c => (GTree.allGroups c).length)).sum := by
  intro ts
  induction ts with
  | nil => rw [GTree.allGroupsList]; rfl
  | cons t ts ih =>
    rw [GTree.allGroupsList, List.length_append, ih, List.map_cons, List.sum_cons]

/-- Helper: the group count of a tree is one plus its children's counts. -/
theorem allGroups_length (n : Nat) (cs : List GTree) :
    (GTree.allGroups (.mk n cs)).length
      = 1 + ((cs.map (fun c => (GTree.allGroups c).length)).sum) := by
  rw [GTree.allGroups, List.length_cons, allGroupsList_length]
  omega

/-- Helper: every tree has at least one group. -/
theorem allGroups_pos : ∀ t : GTree, 1 ≤ (t.allGroups).length
  | .mk n cs => by rw [allGroups_length]; omega

/-- Helper: the reachable set of a node is the node itself plus what its own
task spills. -/
theorem GTree.reach_eq (bad : List Nat) : ∀ t : GTree,
    GTree.reach bad t = t.toGroup :: t.spill bad
  | .mk n cs => by rw [GTree.reach, GTree.spill]; rfl

/-- Helper: four-block append shuffle up to permutation. -/
theorem append_swap_perm {α : Type} (A B C D : List α) :
    ((A ++ B) ++ (C ++ D)).Perm ((A ++ C) ++ (B ++ D)) := by
  have h : ((B ++ C) ++ D).Perm ((C ++ B) ++ D) :=
    List.Perm.append_right D List.perm_append_comm
  have h2 : (B ++ (C ++ D)).Perm (C ++ (B ++ D)) := by
    simpa [List.append_assoc] using h
  simpa [List.append_assoc] using List.Perm.append_left A h2

/-- Helper: the reachable set of a forest splits into the children and the
children's spills, up to permutation. -/
theorem reachList_perm_spill (bad : List Nat) : ∀ cs : List GTree,
    (GTree.reachList bad cs).Perm
      (cs.map GTree.toGroup ++ cs.flatMap (GTree.spill bad)) := by
  intro cs
  induction cs with
  | nil => rw [GTree.reachList]; simp
  | cons c cs ih =>
    rw [GTree.reachList, GTree.reach_eq bad c, List.map_cons, List.flatMap_cons]
    have step1 : ((c.toGroup :: c.spill bad) ++ GTree.reachList bad cs).Perm
        ((c.toGroup :: c.spill bad)
          ++ (cs.map GTree.toGroup ++ cs.flatMap (GTree.spill bad))) :=
      List.Perm.append_left _ ih
    refine step1.trans ?_
    have step2 : ((c.spill bad ++ cs.map GTree.toGroup)
        ++ cs.flatMap (GTree.spill bad)).Perm
        ((cs.map GTree.toGroup ++ c.spill bad) ++ cs.flatMap (GTree.spill bad)) :=
      List.Perm.append_right _ List.perm_append_comm
    have step3 : (c.spill bad
        ++ (cs.map GTree.toGroup ++ cs.flatMap (GTree.spill bad))).Perm
        (cs.map GTree.toGroup ++ (c.spill bad ++ cs.flatMap (GTree.spill bad))) := by
      simpa [List.append_assoc] using step2
    simpa [List.append_assoc] using List.Perm.cons c.toGroup step3

mutual
/-- Helper: with no failing nodes everything is reachable. -/
theorem reach_nil_eq : ∀ t : GTree, GTree.reach [] t = t.allGroups
  | .mk n cs => by
    rw [GTree.reach, GTree.allGroups, reachList_nil_eq cs]
    simp
/-- Helper: with no failing nodes everything in a forest is reachable. -/
theorem reachList_nil_eq : ∀ ts : List GTree,
    GTree.reachList [] ts = GTree.allGroupsList ts
  | [] => by rw [GTree.reachList, GTree.allGroupsList]
  | t :: ts => by
    rw [GTree.reachList, GTree.allGroupsList, reach_nil_eq t, reachList_nil_eq ts]
end

mutual
/-- Helper: the reachable and the lost groups of a tree together are exactly
its full group set, up to permutation. -/
theorem reach_lost_perm : ∀ (bad : List Nat) (t : GTree),
    (GTree.reach bad t ++ GTree.lost bad t).Perm t.allGroups
  | bad, .mk n cs => by
    rw [GTree.reach, GTree.lost, GTree.allGroups]
    by_cases hbad : n ∈ bad
    · rw [if_pos hbad, if_pos hbad]
      simp
    · rw [if_neg hbad, if_neg hbad]
      have h := reachList_lostList_perm bad cs
      simpa using List.Perm.cons (GTree.toGroup (.mk n cs)) h
/-- Helper: forest version of the reach/lost split. -/
theorem reachList_lostList_perm : ∀ (bad : List Nat) (ts : List GTree),
    (GTree.reachList bad ts ++ GTree.lostList bad ts).Perm (GTree.allGroupsList ts)
  | bad, [] => by rw [GTree.reachList, GTree.lostList, GTree.allGroupsList]; rfl
  | bad, t :: ts => by
    rw [GTree.reachList, GTree.lostList, GTree.allGroupsList]
    refine (append_swap_perm _ _ _ _).trans ?_
    exact List.Perm.append (reach_lost_perm bad t) (reachList_lostList_perm bad ts)
end

/-- Helper: the group count of any tree is one plus its children's counts. -/
theorem allGroups_length_children : ∀ t : GTree,
    (t.allGroups).length = 1 + ((t.children.map (fun c => (GTree.allGroups c).length)).sum)
  | .mk n cs => by rw [allGroups_length, GTree.children]

/-- Helper: processing the task work-list on the tree fixture appends, for
every queued node, exactly what that node's recursive task spills — whatever
interleaving the pool would have chosen, the shared collection ends up with
the same multiset. -/
theorem walkSubgroups_treeAPI (t : GTree) (bad : List Nat)
    (hnd : ((t.allIds).map toString).Nodup) (pf : Nat) :
    ∀ (fuel : Nat) (ns : List GTree) (acc : List Group),
      (∀ n ∈ ns, n ∈ t.nodes) →
      ((ns.map (fun n => (GTree.allGroups n).length)).sum ≤ fuel) →
      ∃ gs, walkSubgroups (treeAPI t bad) (pf + 1) fuel
              (ns.map (fun n => toString n.rootId)) acc = some gs
        ∧ gs.Perm (acc ++ ns.flatMap (GTree.spill bad)) := by
  intro fuel
  induction fuel with
  | zero =>
    intro ns acc hmem hsum
    cases ns with
    | nil => exact ⟨acc, by rw [List.map_nil, walkSubgroups], by simp⟩
    | cons n rest =>
      exfalso
      have h1 : 1 ≤ (GTree.allGroups n).length := allGroups_pos n
      rw [List.map_cons, List.sum_cons] at hsum
      omega
  | succ f ih =>
    intro ns acc hmem hsum
    cases ns with
    | nil => exact ⟨acc, by rw [List.map_nil, walkSubgroups], by simp⟩
    | cons n rest =>
      rw [List.map_cons, walkSubgroups,
        fetchSubgroupPages_treeAPI t bad hnd n (hmem n (List.mem_cons_self n rest)) pf]
      dsimp only
      rw [List.map_cons, List.sum_cons] at hsum
      have hlen := allGroups_length_children n
      by_cases hbad : n.rootId ∈ bad
      · rw [if_pos hbad]
        have hrest : ∀ m ∈ rest, m ∈ t.nodes :=
          fun m hm => hmem m (List.mem_cons_of_mem n hm)
        have hsum2 : ((rest.map (fun m => (GTree.allGroups m).length)).sum ≤ f) := by
          omega
        obtain ⟨gs, hw, hperm⟩ := ih rest (acc ++ []) hrest hsum2
        refine ⟨gs, by simpa using hw, ?_⟩
        have hsp : GTree.spill bad n = [] := by rw [GTree.spill, if_pos hbad]
        rw [List.flatMap_cons, hsp]
        simpa using hperm
      · rw [if_neg hbad]
        have hqueue : rest.map (fun m => toString m.rootId)
            ++ n.childGroups.map (fun g => toString g.id)
            = (rest ++ n.children).map (fun m => toString m.rootId) := by
          rw [List.map_append, GTree.childGroups, List.map_map]
          rfl
        have hmem2 : ∀ m ∈ rest ++ n.children, m ∈ t.nodes := by
          intro m hm
          rcases List.mem_append.mp hm with h | h
          · exact hmem m (List.mem_cons_of_mem n h)
          · exact GTree.nodes_trans t n m (hmem n (List.mem_cons_self n rest))
              (GTree.children_mem_nodes n m h)
        have hsum2 : (((rest ++ n.children).map
            (fun m => (GTree.allGroups m).length)).sum ≤ f) := by
          rw [List.map_append, List.sum_append]
          omega
        obtain ⟨gs, hw, hperm⟩ := ih (rest ++ n.children) (acc ++ n.childGroups) hmem2 hsum2
        rw [hqueue]
        refine ⟨gs, hw, ?_⟩
        refine hperm.trans ?_
        rw [List.flatMap_append, List.flatMap_cons]
        have hsp : GTree.spill bad n = GTree.reachList bad n.children := by
          rw [GTree.spill, if_neg hbad]
        rw [hsp]
        have hspl := reachList_perm_spill bad n.children
        have hstep : ((acc ++ n.childGroups)
            ++ (rest.flatMap (GTree.spill bad) ++ n.children.flatMap (GTree.spill bad))).Perm
            ((acc ++ rest.flatMap (GTree.spill bad))
              ++ (n.childGroups ++ n.children.flatMap (GTree.spill bad))) :=
          append_swap_perm acc n.childGroups (rest.flatMap (GTree.spill bad))
            (n.children.flatMap (GTree.spill bad))
        refine hstep.trans ?_
        have hback : (n.childGroups ++ n.children.flatMap (GTree.spill bad)).Perm
            (GTree.reachList bad n.children) := by
          rw [GTree.childGroups]
          exact hspl.symm
        have h3 : ((acc ++ rest.flatMap (GTree.spill bad))
            ++ (n.childGroups ++ n.children.flatMap (GTree.spill bad))).Perm
            ((acc ++ rest.flatMap (GTree.spill bad)) ++ GTree.reachList bad n.children) :=
          List.Perm.append_left _ hback
        refine h3.trans ?_
        have h4 : ((rest.flatMap (GTree.spill bad))
            ++ GTree.reachList bad n.children).Perm
            (GTree.reachList bad n.children ++ rest.flatMap (GTree.spill bad)) :=
          List.perm_append_comm
        simpa [List.append_assoc] using List.Perm.append_left acc h4

/-- Helper: the recursive walk on the tree fixture succeeds and collects, up
to permutation, the root plus everything spilled below it. -/
theorem getGroupsRecursively_treeAPI (t : GTree) (bad : List Nat) (fuel : Nat)
    (hnd : ((t.allIds).map toString).Nodup) (hne : toString t.rootId ≠ "")
    (hfuel : (t.allGroups).length ≤ fuel) :
    ∃ gs, getGroupsRecursively (treeAPI t bad) fuel (toString t.rootId)
            = some (.ok gs) ∧ gs.Perm (GTree.reach bad t) := by
  obtain ⟨f, rfl⟩ : ∃ f, fuel = f + 1 := ⟨fuel - 1, by have := allGroups_pos t; omega⟩
  rw [getGroupsRecursively, if_neg hne, treeAPI_getGroup,
    findNode_self t hnd t (GTree.self_mem_nodes t)]
  dsimp only
  obtain ⟨gs, hw, hperm⟩ := walkSubgroups_treeAPI t bad hnd f (f + 1) [t] [t.toGroup]
    (by
      intro m hm
      rcases List.mem_cons.mp hm with h | h
      · exact h ▸ GTree.self_mem_nodes t
      · cases h)
    (by simpa using hfuel)
  rw [List.map_cons, List.map_nil] at hw
  rw [hw]
  refine ⟨gs, rfl, ?_⟩
  rw [GTree.reach_eq bad t]
  simpa using hperm

/-- Helper: the perfect (B,D) tree has the geometric-sum number of nodes. -/
theorem perfectTree_count : ∀ (d b x : Nat),
    ((perfectTree b d x).allGroups).length
      = (Finset.range (d + 1)).sum (fun i => b ^ i) := by
  intro d
  induction d with
  | zero =>
    intro b x
    rw [perfectTree, allGroups_length]
    simp
  | succ d ih =>
    intro b x
    rw [perfectTree, allGroups_length, List.map_map]
    have hcong : ((List.range b).map
        ((fun c => (GTree.allGroups c).length) ∘ (fun i => perfectTree b d (x * b + i + 1))))
        = (List.range b).map (fun _ => (Finset.range (d + 1)).sum (fun i => b ^ i)) :=
      List.map_congr_left (fun a _ => ih b (x * b + a + 1))
    rw [hcong, List.map_const', List.sum_replicate, List.length_range, smul_eq_mul]
    have hg : (Finset.range (d + 1 + 1)).sum (fun i => b ^ i)
        = b * (Finset.range (d + 1)).sum (fun i => b ^ i) + 1 := geom_sum_succ
    omega

/-- C3: on any synthetic tree fixture whose subgroup listings all succeed,
the walker returns exactly the root plus every subgroup at every depth — no
node missing, none repeated — and on the perfect tree of branching factor B
and depth D the count is the geometric sum 1 + B + B² + … + B^D. -/
theorem treeWalkComplete :
    (∀ (t : GTree) (fuel : Nat),
       ((t.allIds).map toString).Nodup → toString t.rootId ≠ "" →
       (t.allGroups).length ≤ fuel →
       ∃ gs, getGroupsRecursively (treeAPI t []) fuel (toString t.rootId)
               = some (.ok gs)
         ∧ gs.Perm t.allGroups
         ∧ (gs.map Group.id).Nodup
         ∧ gs.length = (t.allGroups).length)
    ∧ (∀ b d x : Nat, ((perfectTree b d x).allGroups).length
        = (Finset.range (d + 1)).sum (fun i => b ^ i)) := by
  constructor
  · intro t fuel hnd hne hfuel
    obtain ⟨gs, hres, hperm⟩ := getGroupsRecursively_treeAPI t [] fuel hnd hne hfuel
    rw [reach_nil_eq t] at hperm
    refine ⟨gs, hres, hperm, ?_, hperm.length_eq⟩
    have hids : (t.allGroups.map Group.id).Nodup := List.Nodup.of_map toString hnd
    have hmap : (gs.map Group.id).Perm (t.allGroups.map Group.id) := hperm.map Group.id
    exact hmap.nodup_iff.mpr hids
  · intro b d x
    exact perfectTree_count d b x

/-- Witness for C3 on the concrete tree {1 → 2 → 4, 1 → 3} and on the
perfect tree with B = 2, D = 1 (1 + 2 = 3 nodes). -/
theorem treeWalkComplete_witness :
    (∃ gs, getGroupsRecursively (treeAPI tEx []) 4 (toString tEx.rootId)
        = some (.ok gs)
      ∧ gs.Perm tEx.allGroups
      ∧ (gs.map Group.id).Nodup
      ∧ gs.length = (tEx.allGroups).length)
    ∧ ((perfectTree 2 1 0).allGroups).length
        = (Finset.range 2).sum (fun i => 2 ^ i) :=
  ⟨treeWalkComplete.1 tEx 4 (by decide) (by decide) (by decide),
   treeWalkComplete.2 2 1 0⟩

/-- C5: when one non-root node's subgroup listing fails, the walk still
reports success and collects every node except the failed node's strict
descendants (the failed branch contributes nothing further, every other
branch's contribution is retained); and the recursive group-token fan-out
returns success with exactly the concatenation of the successfully listed
nodes' wrapped tokens — a node whose token listing fails contributes zero
items. -/
theorem partialFailureIsolation :
    (∀ (t : GTree) (b fuel : Nat),
       ((t.allIds).map toString).Nodup → toString t.rootId ≠ "" →
       (t.allGroups).length ≤ fuel → b ≠ t.rootId →
       ∃ gs, getGroupsRecursively (treeAPI t [b]) fuel (toString t.rootId)
               = some (.ok gs)
         ∧ (gs ++ GTree.lost [b] t).Perm t.allGroups)
    ∧ (∀ (api : API) (fuel : Nat) (incl : Bool) (groups : List Group)
         (acc : List GroupAccessTokenWithGroup),
       (∀ g ∈ groups, listTokensForGroup api fuel (toString g.id) g incl ≠ none) →
       gatherGroupTokens api fuel incl groups acc
         = some (acc ++ groups.flatMap (fun g =>
             match listTokensForGroup api fuel (toString g.id) g incl with
             | some (.ok ts) => ts
             | _ => []))) := by
  constructor
  · intro t b fuel hnd hne hfuel _hb
    obtain ⟨gs, hres, hperm⟩ := getGroupsRecursively_treeAPI t [b] fuel hnd hne hfuel
    exact ⟨gs, hres, (List.Perm.append_right _ hperm).trans (reach_lost_perm [b] t)⟩
  · intro api fuel incl groups
    induction groups with
    | nil =>
      intro acc _
      rw [gatherGroupTokens]
      simp
    | cons g gs ih =>
      intro acc hall
      rw [gatherGroupTokens]
      cases hl : listTokensForGroup api fuel (toString g.id) g incl with
      | none => exact absurd hl (hall g (List.mem_cons_self g gs))
      | some r =>
        cases r with
        | error e =>
          dsimp only
          rw [ih acc (fun g2 h2 => hall g2 (List.mem_cons_of_mem g h2))]
          simp only [List.flatMap_cons]
          rw [hl]
          simp
        | ok ts =>
          dsimp only
          rw [ih (acc ++ ts) (fun g2 h2 => hall g2 (List.mem_cons_of_mem g h2))]
          simp only [List.flatMap_cons]
          rw [hl]
          simp [List.append_assoc]

/-- Witness for C5: node 2's subgroup listing fails in the concrete tree, so
node 4 is lost while 1, 2 and 3 are retained and the call succeeds. -/
theorem partialFailureIsolation_witness :
    ∃ gs, getGroupsRecursively (treeAPI tEx [2]) 4 (toString tEx.rootId)
        = some (.ok gs)
      ∧ (gs ++ GTree.lost [2] tEx).Perm tEx.allGroups :=
  partialFailureIsolation.1 tEx 2 4 (by decide) (by decide) (by decide) (by decide)

end GLReporter
